import Mathlib

/-!
Shallow embedding of the Likee scraping client, covering both module
versions in the repository: `src/api.py` (embedded in namespace `RootApi`)
and `src/LikeeScraper/api.py` (embedded in namespace `LikeeScraper`).

Pure data and control flow are translated directly from the Python source.
The network and the browser are passed in as explicit oracles, Python
exceptions are modelled as explicit error values, and the recursive
pagination functions take a fuel parameter so that non-terminating runs
are observable as `outOfFuel`.
-/

/-- A fetched record (video, hashtag or comment-page entry).  The only field
the pagination code ever reads is the server-assigned `postId`
(`videos[-1]['postId']`), which serves both as the cursor and as the primary
identifier of an item. -/
structure Item where
  postId : Int
deriving DecidableEq

/-- The `data` member of a decoded response body.  The pagination code reads
`response['data']['videoList']` (video endpoints) or
`response['data']['eventList']` (hashtag endpoint); a missing key raises
`KeyError` in Python and is modelled by `none`. -/
structure PageData where
  videoList : Option (List Item) := none
  eventList : Option (List Item) := none
deriving DecidableEq

/-- A decoded JSON response body.  `message` and `msg` are the two
error-signalling fields inspected by `make_post_request`; `data` holds the
payload; `otherKeys` counts any further top-level keys (the code only ever
observes the size of the rest of the dict, through `len(response)`). -/
structure Body where
  message : Option String := none
  msg : Option String := none
  data : Option PageData := none
  otherKeys : Nat := 0
deriving DecidableEq

/-- Python `len(response)` on the decoded dict: the number of present keys. -/
def Body.dictLen (b : Body) : Nat :=
  (if b.message.isSome then 1 else 0) + (if b.msg.isSome then 1 else 0) +
    (if b.data.isSome then 1 else 0) + b.otherKeys

/-- The empty dict `{}`: the failure sentinel returned by `make_post_request`. -/
def emptyBody : Body := {}

/-- Python exceptions that the translated code can raise. -/
inductive PyErr where
  | keyError
  | indexError
  | nameError
  | timeoutError
  | valueError
deriving DecidableEq

/-- What the HTTP layer does for one POST request: either `requests.post`
raises `requests.exceptions.Timeout`, or it yields a status code and a
decoded JSON body. -/
inductive HttpOutcome where
  | timeout
  | response (status : Nat) (body : Body)

/-- The response-validation tail of `make_post_request`, identical in both
module versions:

    if ('message' in response and response['message'] != 'ok'):
        return {}
    elif ('msg' in response and response['msg'] != 'success'):
        return {}
    else:
        return response
-/
def validate_response (response : Body) : Body :=
  if response.message.isSome ∧ response.message ≠ some "ok" then emptyBody
  else if response.msg.isSome ∧ response.msg ≠ some "success" then emptyBody
  else response

/-- Python-style dict access `response['data']`. -/
def getData (response : Body) : Except PyErr PageData :=
  match response.data with
  | some d => .ok d
  | none => .error .keyError

/-- Python-style dict access `d['videoList']`. -/
def getVideoList (d : PageData) : Except PyErr (List Item) :=
  match d.videoList with
  | some l => .ok l
  | none => .error .keyError

/-- Python-style dict access `d['eventList']`. -/
def getEventList (d : PageData) : Except PyErr (List Item) :=
  match d.eventList with
  | some l => .ok l
  | none => .error .keyError

/-- Result of one (fuel-bounded) pagination run.  `ok ret shared calls`
means the run returned the list `ret` to the caller, left the shared
default-argument accumulator holding `shared`, and made `calls` transport
calls; `err e calls` means the Python exception `e` propagated to the
caller after `calls` transport calls; `outOfFuel calls` means the run was
still recursing when the fuel ran out. -/
inductive Outcome where
  | ok (ret : List Item) (shared : List Item) (calls : Nat)
  | err (e : PyErr) (calls : Nat)
  | outOfFuel (calls : Nat)
deriving DecidableEq

/-- Add the transport calls made by the current activation to the count
reported by the recursive call. -/
def Outcome.addCalls (o : Outcome) (n : Nat) : Outcome :=
  match o with
  | .ok r s c => .ok r s (c + n)
  | .err e c => .err e (c + n)
  | .outOfFuel c => .outOfFuel (c + n)

namespace LikeeScraper

/-- `src/LikeeScraper/api.py`, `make_post_request`.  `requests.post` is
called with a `timeout=` argument and no surrounding try/except, so a
timeout propagates `requests.exceptions.Timeout` to the caller.  A non-200
status prints the status code and returns `{}`; otherwise the decoded body
goes through the `message`/`msg` validation. -/
def make_post_request (o : HttpOutcome) : Except PyErr Body :=
  match o with
  | .timeout => .error .timeoutError
  | .response status body =>
    if status ≠ 200 then .ok emptyBody
    else .ok (validate_response body)

/-- `src/LikeeScraper/api.py`, `get_user_videos(user_id, limit=10,
last_post_id='', videos=[])`.  The network is an oracle `net` indexed by the
number of transport calls already made in this run; `videos` models the
shared mutable default accumulator; the Python default for `limit` is 10.

    response = self.make_post_request(payload, self.user_vids_endpoint)
    videos.extend(response['data']['videoList'])
    if len(videos) < limit and len(response) > 0:
        self.pause()
        last_id = videos[-1]['postId']
        return self.get_user_videos(user_id, limit, last_post_id=last_id,
                                    videos=videos)
    else:
        return videos[:limit]
-/
def get_user_videos (net : Nat → HttpOutcome) (limit : Nat)
    (videos : List Item) (k : Nat) (fuel : Nat) : Outcome :=
  match fuel with
  | 0 => .outOfFuel 0
  | fuel + 1 =>
    match make_post_request (net k) with
    | .error e => .err e 1
    | .ok response =>
      match getData response with
      | .error e => .err e 1
      | .ok d =>
        match getVideoList d with
        | .error e => .err e 1
        | .ok page =>
          let videos := videos ++ page
          if videos.length < limit ∧ 0 < response.dictLen then
            match videos.getLast? with
            | none => .err .indexError 1
            | some _last => (get_user_videos net limit videos (k + 1) fuel).addCalls 1
          else
            .ok (videos.take limit) videos 1

/-- `src/LikeeScraper/api.py`, `get_trending_videos(limit=30, start=0,
last_post_id=0, video_list=[])`.  The Python default for `limit` is 30.

    response = self.make_post_request(payload, self.trending_vids_endpoint)
    video_list.extend(response['data']['videoList'])
    if len(video_list) < limit:
        self.pause()
        last_id = video_list[-1]['postId']
        return self.get_trending_videos(limit=limit, last_post_id=last_id,
                                        video_list=video_list)
    else:
        return video_list[:limit]
-/
def get_trending_videos (net : Nat → HttpOutcome) (limit : Nat)
    (video_list : List Item) (k : Nat) (fuel : Nat) : Outcome :=
  match fuel with
  | 0 => .outOfFuel 0
  | fuel + 1 =>
    match make_post_request (net k) with
    | .error e => .err e 1
    | .ok response =>
      match getData response with
      | .error e => .err e 1
      | .ok d =>
        match getVideoList d with
        | .error e => .err e 1
        | .ok page =>
          let video_list := video_list ++ page
          if video_list.length < limit then
            match video_list.getLast? with
            | none => .err .indexError 1
            | some _last =>
              (get_trending_videos net limit video_list (k + 1) fuel).addCalls 1
          else
            .ok (video_list.take limit) video_list 1

/-- `src/LikeeScraper/api.py`, `get_trending_hashtags(limit=20, page=1,
hashtags=[])`.  The Python default for `limit` is 20.  The cursor is the
page counter (already folded into the call index of the oracle); the loop
re-reads `response['data']['eventList']` in its condition, which is the same
list that was just appended.

    response = self.make_post_request(payload, self.trending_hashtags_endpoint,
                                      content_type='form')
    hashtags.extend(response['data']['eventList'])
    if len(hashtags) < limit and len(response['data']['eventList']) > 0:
        self.pause()
        return self.get_trending_hashtags(limit=limit, page=page+1,
                                          hashtags=hashtags)
    return hashtags[:limit]
-/
def get_trending_hashtags (net : Nat → HttpOutcome) (limit : Nat)
    (hashtags : List Item) (k : Nat) (fuel : Nat) : Outcome :=
  match fuel with
  | 0 => .outOfFuel 0
  | fuel + 1 =>
    match make_post_request (net k) with
    | .error e => .err e 1
    | .ok response =>
      match getData response with
      | .error e => .err e 1
      | .ok d =>
        match getEventList d with
        | .error e => .err e 1
        | .ok page =>
          let hashtags := hashtags ++ page
          if hashtags.length < limit ∧ 0 < page.length then
            (get_trending_hashtags net limit hashtags (k + 1) fuel).addCalls 1
          else
            .ok (hashtags.take limit) hashtags 1

/-- `src/LikeeScraper/api.py`, `get_hashtag_videos(hashtag_id, limit=50,
page=1, videos=[])`.  The Python default for `limit` is 50; the cursor is
the page counter.

    response = self.make_post_request(payload, self.hashtag_vids_endpoint,
                                      content_type='form')
    videos.extend(response['data']['videoList'])
    if len(videos) < limit:
        self.pause()
        return self.get_hashtag_videos(hashtag_id, limit=limit, page=page+1,
                                       videos=videos)
    return videos[:limit]
-/
def get_hashtag_videos (net : Nat → HttpOutcome) (limit : Nat)
    (videos : List Item) (k : Nat) (fuel : Nat) : Outcome :=
  match fuel with
  | 0 => .outOfFuel 0
  | fuel + 1 =>
    match make_post_request (net k) with
    | .error e => .err e 1
    | .ok response =>
      match getData response with
      | .error e => .err e 1
      | .ok d =>
        match getVideoList d with
        | .error e => .err e 1
        | .ok page =>
          let videos := videos ++ page
          if videos.length < limit then
            (get_hashtag_videos net limit videos (k + 1) fuel).addCalls 1
          else
            .ok (videos.take limit) videos 1

end LikeeScraper

namespace RootApi

/-- `src/api.py`, `make_post_request`.  This version calls `requests.post`
without a `timeout=` argument, so its input is simply the HTTP status and
decoded body.  Its non-200 branch executes
`print('HTTP error: ', status_code)` where `status_code` is an undefined
name, so it raises `NameError` instead of returning `{}`. -/
def make_post_request (status : Nat) (body : Body) : Except PyErr Body :=
  if status ≠ 200 then .error .nameError
  else .ok (validate_response body)

/-- Python truthiness of the optional `limit` argument (`if limit:`). -/
def pyTruthy (limit : Option Nat) : Bool :=
  match limit with
  | none => false
  | some n => n ≠ 0

/-- `src/api.py`, `get_user_videos(user_id, limit=None, last_post_id='',
videos=[])`.  The oracle maps the call index to the HTTP status and body.

    response = self.make_post_request(payload, self.user_vids_endpoint)
    videos.extend(response['data']['videoList'])
    if limit:
        self.pause()
        if len(videos) < limit and len(response) > 0:
            last_id = videos[-1]['postId']
            return self.get_user_videos(user_id, limit, last_post_id=last_id,
                                        videos=videos)
        else:
            return videos[:limit]
    return videos
-/
def get_user_videos (net : Nat → Nat × Body) (limit : Option Nat)
    (videos : List Item) (k : Nat) (fuel : Nat) : Outcome :=
  match fuel with
  | 0 => .outOfFuel 0
  | fuel + 1 =>
    match make_post_request (net k).1 (net k).2 with
    | .error e => .err e 1
    | .ok response =>
      match getData response with
      | .error e => .err e 1
      | .ok d =>
        match getVideoList d with
        | .error e => .err e 1
        | .ok page =>
          let videos := videos ++ page
          if pyTruthy limit then
            if videos.length < limit.getD 0 ∧ 0 < response.dictLen then
              match videos.getLast? with
              | none => .err .indexError 1
              | some _last => (get_user_videos net limit videos (k + 1) fuel).addCalls 1
            else
              .ok (videos.take (limit.getD 0)) videos 1
          else
            .ok videos videos 1

/-- `src/api.py`, `get_trending_videos(limit=None, start=0, last_post_id=0,
video_list=[])`.

    response = self.make_post_request(payload, self.trending_vids_endpoint)
    video_list.extend(response['data']['videoList'])
    if limit:
        if len(video_list) < limit:
            self.pause()
            last_id = video_list[-1]['postId']
            return self.get_trending_videos(limit=limit, last_post_id=last_id,
                                            video_list=video_list)
        else:
            return video_list[:limit]
    return video_list
-/
def get_trending_videos (net : Nat → Nat × Body) (limit : Option Nat)
    (video_list : List Item) (k : Nat) (fuel : Nat) : Outcome :=
  match fuel with
  | 0 => .outOfFuel 0
  | fuel + 1 =>
    match make_post_request (net k).1 (net k).2 with
    | .error e => .err e 1
    | .ok response =>
      match getData response with
      | .error e => .err e 1
      | .ok d =>
        match getVideoList d with
        | .error e => .err e 1
        | .ok page =>
          let video_list := video_list ++ page
          if pyTruthy limit then
            if video_list.length < limit.getD 0 then
              match video_list.getLast? with
              | none => .err .indexError 1
              | some _last =>
                (get_trending_videos net limit video_list (k + 1) fuel).addCalls 1
            else
              .ok (video_list.take (limit.getD 0)) video_list 1
          else
            .ok video_list video_list 1

/-- `src/api.py`, `get_trending_hashtags(limit=None, page=1, hashtags=[])`.
Unlike the `LikeeScraper` version, this one has no emptiness check on the
fetched page.

    response = self.make_post_request(payload, self.trending_hashtags_endpoint,
                                      content_type='form')
    hashtags.extend(response['data']['eventList'])
    if limit:
        if len(hashtags) < limit:
            self.pause()
            return self.get_trending_hashtags(limit=limit, page=page+1,
                                              hashtags=hashtags)
        return hashtags[:limit]
    return hashtags
-/
def get_trending_hashtags (net : Nat → Nat × Body) (limit : Option Nat)
    (hashtags : List Item) (k : Nat) (fuel : Nat) : Outcome :=
  match fuel with
  | 0 => .outOfFuel 0
  | fuel + 1 =>
    match make_post_request (net k).1 (net k).2 with
    | .error e => .err e 1
    | .ok response =>
      match getData response with
      | .error e => .err e 1
      | .ok d =>
        match getEventList d with
        | .error e => .err e 1
        | .ok page =>
          let hashtags := hashtags ++ page
          if pyTruthy limit then
            if hashtags.length < limit.getD 0 then
              (get_trending_hashtags net limit hashtags (k + 1) fuel).addCalls 1
            else
              .ok (hashtags.take (limit.getD 0)) hashtags 1
          else
            .ok hashtags hashtags 1

/-- `src/api.py`, `get_hashtag_videos(hashtag_id, limit=None, page=1,
videos=[])`.

    response = self.make_post_request(payload, self.hashtag_vids_endpoint,
                                      content_type='form')
    videos.extend(response['data']['videoList'])
    if limit:
        if len(videos) < limit:
            self.pause()
            return self.get_hashtag_videos(hashtag_id, limit=limit,
                                           page=page+1, videos=videos)
        else:
            return videos[:limit]
    return videos
-/
def get_hashtag_videos (net : Nat → Nat × Body) (limit : Option Nat)
    (videos : List Item) (k : Nat) (fuel : Nat) : Outcome :=
  match fuel with
  | 0 => .outOfFuel 0
  | fuel + 1 =>
    match make_post_request (net k).1 (net k).2 with
    | .error e => .err e 1
    | .ok response =>
      match getData response with
      | .error e => .err e 1
      | .ok d =>
        match getVideoList d with
        | .error e => .err e 1
        | .ok page =>
          let videos := videos ++ page
          if pyTruthy limit then
            if videos.length < limit.getD 0 then
              (get_hashtag_videos net limit videos (k + 1) fuel).addCalls 1
            else
              .ok (videos.take (limit.getD 0)) videos 1
          else
            .ok videos videos 1

end RootApi

/-- A well-formed success body carrying the item list `l` under both list
keys, as served by a mocked transport. -/
def mockBody (l : List Item) : Body :=
  { data := some { videoList := some l, eventList := some l } }

/-- A mocked network for the `LikeeScraper` paginators: call `k` succeeds
with HTTP 200 and the page `pg k`. -/
def mockNet (pg : Nat → List Item) : Nat → HttpOutcome :=
  fun k => .response 200 (mockBody (pg k))

/-- A mocked network for the `RootApi` paginators. -/
def mockNet1 (pg : Nat → List Item) : Nat → Nat × Body :=
  fun k => (200, mockBody (pg k))

/-- Concatenation of the pages `pg k, pg (k+1), ..., pg (k+m-1)`. -/
def pagesJoin (pg : Nat → List Item) (k : Nat) : Nat → List Item
  | 0 => []
  | m + 1 => pg k ++ pagesJoin pg (k + 1) m

/-- A rendered comment element (`comment-item`) exposed by the browser
collaborator.  `eid` is the element identity used by selenium's element
equality; the remaining fields are the texts of the sub-elements read by the
comment builder (`msgMin` is `none` when the `msg_min` child is absent, in
which case the Python code recovers with an empty string). -/
structure Elem where
  eid : Nat
  nickname : String := ""
  msgMin : Option String := none
  timeText : String := ""
  likeCountText : String := ""
deriving DecidableEq

/-- One extracted comment record, as appended to `comments_arr`. -/
structure Comment where
  username : String
  comment_text : String
  time : String
  like_count : Int
deriving DecidableEq

/-- Accumulating decimal-digit parse: `some` of the value when every
character is a digit, `none` otherwise. -/
def digitsValAux (acc : Nat) : List Char → Option Nat
  | [] => some acc
  | c :: rest =>
    if c.isDigit then digitsValAux (acc * 10 + (c.toNat - 48)) rest else none

/-- Python `int(str)` on a bare (optionally negated) decimal token:
`none` models the `ValueError` raised on malformed input. -/
def pyInt? : List Char → Option Int
  | [] => none
  | c :: rest =>
    if c = '-' then
      match rest with
      | [] => none
      | _ => (digitsValAux 0 rest).map (fun n => -(n : Int))
    else (digitsValAux 0 (c :: rest)).map (fun n => (n : Int))

/-- Building one comment dict from a rendered element:

    try:
        text = elem.find_element(...'msg_min').text
    except Exception:
        text = ''
    like_count = elem.find_element(...'like-count').text
    try:
        like_count = int(like_count)
    except Exception:
        like_count = 0
-/
def mk_comment (e : Elem) : Comment :=
  { username := e.nickname
    comment_text := e.msgMin.getD ""
    time := e.timeText
    like_count := (pyInt? e.likeCountText.data).getD 0 }

/-- Python slice `l[:n]` for an `int` bound `n` (negative bounds count from
the end of the list, clamping at zero). -/
def pyTake {α : Type} (l : List α) (n : Int) : List α :=
  if 0 ≤ n then l.take n.toNat else l.take (l.length - (-n).toNat)

/-- Python `str.isspace` on the whitespace classes recognised by
`str.split()`. -/
def pyIsSpace (c : Char) : Bool :=
  c == ' ' || c == '\t' || c == '\n' || c == '\x0b' || c == '\x0c' || c == '\r'

/-- Python `str.split()`: maximal runs of non-whitespace characters, with
empty tokens dropped.  `cur` holds the (reversed) token currently being
collected. -/
def splitTokensAux (cur : List Char) : List Char → List (List Char)
  | [] => if cur = [] then [] else [cur.reverse]
  | c :: rest =>
    if pyIsSpace c then
      if cur = [] then splitTokensAux [] rest
      else cur.reverse :: splitTokensAux [] rest
    else splitTokensAux (c :: cur) rest

/-- Python `.split()[0]`: first whitespace-separated token of the comment
count text; `[0]` on no tokens raises `IndexError`. -/
def firstToken (s : String) : Except PyErr String :=
  match splitTokensAux [] s.data with
  | [] => .error .indexError
  | t :: _ => .ok ⟨t⟩

/-- Truncation-toward-zero of Python `float(t)` for the decimal literals
that appear in comment counts: the integer value of the (signed) part
before the decimal point; `none` models the `ValueError` on malformed
input. -/
def floatIntPart? (t : List Char) : Option Int :=
  if t = [] then none
  else
    let ip := t.takeWhile (fun c => c ≠ '.')
    if ip = [] then some 0
    else if ip = ['-'] then some 0
    else pyInt? ip

/-- Parsing the displayed comment count, shared by both module versions:

    if comments_count[-1] == 'K':
        num_comments = int(float(comments_count[:-1])) * 1000
    else:
        num_comments = int(comments_count)

`s[-1]` on an empty string raises `IndexError`; `int(...)` and `float(...)`
on a non-numeric string raise `ValueError`. -/
def parse_comments_count (s : String) : Except PyErr Int :=
  match s.data.getLast? with
  | none => .error .indexError
  | some c =>
    if c = 'K' then
      match floatIntPart? s.data.dropLast with
      | some n => .ok (n * 1000)
      | none => .error .valueError
    else
      match pyInt? s.data with
      | some n => .ok n
      | none => .error .valueError

/-- Result of the comment-scrolling while loop: the final `elements` list
plus the number of in-loop polls of the collaborator, or a propagated
exception, or fuel exhaustion. -/
inductive LoopRes where
  | ok (elements : List Elem) (polls : Nat)
  | err (e : PyErr) (polls : Nat)
  | outOfFuel (polls : Nat)
deriving DecidableEq

/-- Add the polls made by the current loop iteration to the count reported
by the rest of the loop. -/
def LoopRes.addPolls (o : LoopRes) (n : Nat) : LoopRes :=
  match o with
  | .ok l c => .ok l (c + n)
  | .err e c => .err e (c + n)
  | .outOfFuel c => .outOfFuel (c + n)

/-- The comment-scrolling while loop, structurally identical in both module
versions (the `src/api.py` version additionally evaluates the attribute
`self.driver.refresh` without calling it, a no-op):

    while len(elements) < limit:
        self.driver.execute_script('arguments[0].scrollIntoView();', last_elem)
        self.pause()
        elements = self.driver.find_elements(By.CLASS_NAME, 'comment-item')
        if last_elem == elements[-1]:
            break
        last_elem = elements[-1]

`polls i` is the element list returned by the `i`-th `find_elements` call
(`polls 0` being the initial one made before the loop). -/
def comments_loop (polls : Nat → List Elem) (limit : Int) :
    List Elem → Elem → Nat → Nat → LoopRes
  | elements, last_elem, i, fuel =>
    if (elements.length : Int) < limit then
      match fuel with
      | 0 => .outOfFuel 0
      | fuel + 1 =>
        let elements := polls i
        match elements.getLast? with
        | none => .err .indexError 1
        | some lastNew =>
          if lastNew = last_elem then .ok elements 1
          else (comments_loop polls limit elements lastNew (i + 1) fuel).addPolls 1
    else .ok elements 0

/-- The rendered video page consumed by `get_video_comments`: the
`video-card` elements, the text of the comment-count span, and the
successive results of polling the `comment-item` elements. -/
structure CommentsPage where
  videoCards : List Elem
  countText : String
  polls : Nat → List Elem

/-- Result of a comment-extraction run. -/
inductive CommentsRes where
  | ok (comments : List Comment)
  | err (e : PyErr)
  | outOfFuel
deriving DecidableEq

namespace LikeeScraper

/-- `src/LikeeScraper/api.py`, `get_video_comments(video_url, limit=10)`:
click the first `video-card` (`[0]` raises `IndexError` when there is
none), parse the displayed comment count, clamp the limit with
`limit = min(limit, num_comments)`, locate the `comment-item` elements
(`elements[0]` and `elements[-1]` raise `IndexError` when empty), run the
scrolling loop, and build one comment per element of `elements[:limit]`. -/
def get_video_comments (page : CommentsPage) (limit : Int) (fuel : Nat) :
    CommentsRes :=
  match page.videoCards.head? with
  | none => .err .indexError
  | some _card =>
    match firstToken page.countText with
    | .error e => .err e
    | .ok tok =>
      match parse_comments_count tok with
      | .error e => .err e
      | .ok num_comments =>
        let limit := min limit num_comments
        let elements := page.polls 0
        match elements.head? with
        | none => .err .indexError
        | some _first =>
          match elements.getLast? with
          | none => .err .indexError
          | some last_elem =>
            match comments_loop page.polls limit elements last_elem 1 fuel with
            | .outOfFuel _ => .outOfFuel
            | .err e _ => .err e
            | .ok elements _ => .ok ((pyTake elements limit).map mk_comment)

end LikeeScraper

namespace RootApi

/-- `src/api.py`, `get_video_comments(video_url, limit=10)`.  Same shape as
the `LikeeScraper` version except that the elements are located before the
count is parsed and, crucially, the final builder iterates over all of
`elements` rather than `elements[:limit]`. -/
def get_video_comments (page : CommentsPage) (limit : Int) (fuel : Nat) :
    CommentsRes :=
  match page.videoCards.head? with
  | none => .err .indexError
  | some _card =>
    let elements := page.polls 0
    match elements.head? with
    | none => .err .indexError
    | some _first =>
      match elements.getLast? with
      | none => .err .indexError
      | some last_elem =>
        match firstToken page.countText with
        | .error e => .err e
        | .ok tok =>
          match parse_comments_count tok with
          | .error e => .err e
          | .ok num_comments =>
            let limit := min limit num_comments
            match comments_loop page.polls limit elements last_elem 1 fuel with
            | .outOfFuel _ => .outOfFuel
            | .err e _ => .err e
            | .ok elements _ => .ok (elements.map mk_comment)

end RootApi

/-- The duration slept by `pause` in both module versions
(`time.sleep(self.pause_time + random.random())` in `src/LikeeScraper/api.py`,
`time.sleep(n_seconds + random.random())` in `src/api.py`), where `r` is the
value drawn by `random.random()`, which lies in `[0, 1)`. -/
def pause_duration (base r : ℚ) : ℚ := base + r

/-- The default base pause: `n_seconds=3` in `src/api.py`.  (The
`LikeeScraper` version reads its default from `config.PAUSE_TIME`;
`config.py` is not under `src/`, and the spec gives the same default of 3
time-units.) -/
def default_pause_seconds : ℚ := 3

/-- Python `url.replace('_4', '')`: left-to-right removal of every
non-overlapping occurrence of the two-character pattern `_4`. -/
def remove_4 : List Char → List Char
  | [] => []
  | [c] => [c]
  | c1 :: c2 :: rest =>
    if c1 = '_' ∧ c2 = '4' then remove_4 rest
    else c1 :: remove_4 (c2 :: rest)

/-- The URL actually fetched by `download_video`:
`video_url = video_url.replace('_4', '')`. -/
def watermark_removed (url : String) : String := ⟨remove_4 url.data⟩

/-- Observable effects of a `download_video` run. -/
inductive DlStep where
  | httpGet (url : String)
  | printedTimeout (url : String)
  | wrote (path : String) (content : String)
deriving DecidableEq

namespace LikeeScraper

/-- `src/LikeeScraper/api.py`, `download_video(video_url, filepath)`:

    video_url = video_url.replace('_4', '')
    try:
        video = requests.get(video_url, headers=self.json_headers,
                             timeout=self.timeout)
    except requests.exceptions.Timeout:
        print('Timeout error downloading video: ', video_url)
        return
    with open(filepath, 'wb') as f:
        f.write(video.content)

`net` models `requests.get`: `none` means the request raised
`requests.exceptions.Timeout`, `some content` a successful response.  The
result is the trace of observable effects, in order. -/
def download_video (net : String → Option String) (video_url filepath : String) :
    List DlStep :=
  let video_url := watermark_removed video_url
  match net video_url with
  | none => [.httpGet video_url, .printedTimeout video_url]
  | some video => [.httpGet video_url, .wrote filepath video]

end LikeeScraper

/-- The parsed comment count of a rendered page: `.split()[0]` followed by
the `K`-aware integer parse. -/
def parseCount (page : CommentsPage) : Except PyErr Int :=
  match firstToken page.countText with
  | .error e => .error e
  | .ok tok => parse_comments_count tok

/-- The C1 mock source: the first transport call yields three items and
every later call yields an empty page (pages become empty at page K = 2). -/
def c1pg : Nat → List Item := fun k => if k = 0 then [⟨1⟩, ⟨2⟩, ⟨3⟩] else []

/-- The C7 mock page: the collaborator displays a count of 10 and returns
the same three comment elements on every poll. -/
def c7page : CommentsPage :=
  { videoCards := [{ eid := 100 }]
    countText := "10 comments"
    polls := fun _ => [{ eid := 1 }, { eid := 2 }, { eid := 3 }] }

/-- The rendered page used by the C2 witness: count text `7`, three comment
elements on every poll. -/
def c2wpage : CommentsPage :=
  { videoCards := [{ eid := 9 }]
    countText := "7"
    polls := fun _ => [{ eid := 1 }, { eid := 2 }, { eid := 3 }] }

deriving instance DecidableEq for Except

/-- Inverting `Outcome.addCalls` on a normal return. -/
lemma Outcome.addCalls_eq_ok {o : Outcome} {n : Nat} {r s : List Item} {c : Nat}
    (h : o.addCalls n = .ok r s c) : ∃ c0, o = .ok r s c0 ∧ c = c0 + n := by
  cases o with
  | ok r0 s0 c0 =>
    simp only [Outcome.addCalls, Outcome.ok.injEq] at h
    exact ⟨c0, by simp [h.1, h.2.1], h.2.2.symm⟩
  | err e c0 => simp [Outcome.addCalls] at h
  | outOfFuel c0 => simp [Outcome.addCalls] at h

/-- A body whose `data` key is present has a positive dict size. -/
lemma Body.dictLen_pos {b : Body} (h : b.data.isSome) : 0 < b.dictLen := by
  unfold Body.dictLen
  simp [h]

lemma make_post_request_mock (pg : Nat → List Item) (k : Nat) :
    LikeeScraper.make_post_request (mockNet pg k) = .ok (mockBody (pg k)) := rfl

/-- One successful step of `LikeeScraper.get_user_videos` under a mocked
transport. -/
lemma guv_mock_step (pg : Nat → List Item) (limit : Nat) (acc : List Item)
    (k fuel : Nat) :
    LikeeScraper.get_user_videos (mockNet pg) limit acc k (fuel + 1) =
      if (acc ++ pg k).length < limit then
        match (acc ++ pg k).getLast? with
        | none => .err .indexError 1
        | some _ =>
          (LikeeScraper.get_user_videos (mockNet pg) limit (acc ++ pg k)
            (k + 1) fuel).addCalls 1
      else .ok ((acc ++ pg k).take limit) (acc ++ pg k) 1 := by
  simp [LikeeScraper.get_user_videos, mockNet, mockBody,
    LikeeScraper.make_post_request, validate_response, getData, getVideoList,
    Body.dictLen]

lemma getData_eq_ok {b : Body} {d : PageData} (h : getData b = .ok d) :
    b.data = some d := by
  cases hb : b.data with
  | none => simp [getData, hb] at h
  | some d0 => simp [getData, hb] at h; simp [h]

/-- Every normal return of `LikeeScraper.get_user_videos` is the truncation
of the final accumulator, whose length has reached the limit. -/
lemma guv_ok_inv : ∀ (fuel : Nat) (net : Nat → HttpOutcome) (limit : Nat)
    (acc : List Item) (k : Nat) (ret sh : List Item) (c : Nat),
    LikeeScraper.get_user_videos net limit acc k fuel = .ok ret sh c →
    ret = sh.take limit ∧ limit ≤ sh.length := by
  intro fuel
  induction fuel with
  | zero =>
    intro net limit acc k ret sh c h
    simp [LikeeScraper.get_user_videos] at h
  | succ fuel ih =>
    intro net limit acc k ret sh c h
    rcases hm : LikeeScraper.make_post_request (net k) with e | resp
    · simp only [LikeeScraper.get_user_videos, hm] at h
      exact Outcome.noConfusion h
    · simp only [LikeeScraper.get_user_videos, hm] at h
      rcases hd : getData resp with e | d
      · simp only [hd] at h
        exact Outcome.noConfusion h
      · simp only [hd] at h
        rcases hv : getVideoList d with e | page
        · simp only [hv] at h
          exact Outcome.noConfusion h
        · simp only [hv] at h
          by_cases hc : (acc ++ page).length < limit ∧ 0 < resp.dictLen
          · simp only [if_pos hc] at h
            rcases hl : (acc ++ page).getLast? with _ | x
            · simp only [hl] at h
              exact Outcome.noConfusion h
            · simp only [hl] at h
              obtain ⟨c0, h0, -⟩ := Outcome.addCalls_eq_ok h
              exact ih net limit (acc ++ page) (k + 1) ret sh c0 h0
          · simp only [if_neg hc] at h
            obtain ⟨hret, hsh, -⟩ := Outcome.ok.inj h
            subst hsh
            refine ⟨hret.symm, ?_⟩
            have hpos : 0 < resp.dictLen :=
              Body.dictLen_pos (by simp [getData_eq_ok hd])
            push_neg at hc
            omega

/-- Every normal return of `LikeeScraper.get_trending_videos` is the
truncation of the final accumulator, whose length has reached the limit. -/
lemma gtv_ok_inv : ∀ (fuel : Nat) (net : Nat → HttpOutcome) (limit : Nat)
    (acc : List Item) (k : Nat) (ret sh : List Item) (c : Nat),
    LikeeScraper.get_trending_videos net limit acc k fuel = .ok ret sh c →
    ret = sh.take limit ∧ limit ≤ sh.length := by
  intro fuel
  induction fuel with
  | zero =>
    intro net limit acc k ret sh c h
    simp [LikeeScraper.get_trending_videos] at h
  | succ fuel ih =>
    intro net limit acc k ret sh c h
    rcases hm : LikeeScraper.make_post_request (net k) with e | resp
    · simp only [LikeeScraper.get_trending_videos, hm] at h
      exact Outcome.noConfusion h
    · simp only [LikeeScraper.get_trending_videos, hm] at h
      rcases hd : getData resp with e | d
      · simp only [hd] at h
        exact Outcome.noConfusion h
      · simp only [hd] at h
        rcases hv : getVideoList d with e | page
        · simp only [hv] at h
          exact Outcome.noConfusion h
        · simp only [hv] at h
          by_cases hc : (acc ++ page).length < limit
          · simp only [if_pos hc] at h
            rcases hl : (acc ++ page).getLast? with _ | x
            · simp only [hl] at h
              exact Outcome.noConfusion h
            · simp only [hl] at h
              obtain ⟨c0, h0, -⟩ := Outcome.addCalls_eq_ok h
              exact ih net limit (acc ++ page) (k + 1) ret sh c0 h0
          · simp only [if_neg hc] at h
            obtain ⟨hret, hsh, -⟩ := Outcome.ok.inj h
            subst hsh
            exact ⟨hret.symm, by omega⟩

/-- Every normal return of `LikeeScraper.get_hashtag_videos` is the
truncation of the final accumulator, whose length has reached the limit. -/
lemma ghv_ok_inv : ∀ (fuel : Nat) (net : Nat → HttpOutcome) (limit : Nat)
    (acc : List Item) (k : Nat) (ret sh : List Item) (c : Nat),
    LikeeScraper.get_hashtag_videos net limit acc k fuel = .ok ret sh c →
    ret = sh.take limit ∧ limit ≤ sh.length := by
  intro fuel
  induction fuel with
  | zero =>
    intro net limit acc k ret sh c h
    simp [LikeeScraper.get_hashtag_videos] at h
  | succ fuel ih =>
    intro net limit acc k ret sh c h
    rcases hm : LikeeScraper.make_post_request (net k) with e | resp
    · simp only [LikeeScraper.get_hashtag_videos, hm] at h
      exact Outcome.noConfusion h
    · simp only [LikeeScraper.get_hashtag_videos, hm] at h
      rcases hd : getData resp with e | d
      · simp only [hd] at h
        exact Outcome.noConfusion h
      · simp only [hd] at h
        rcases hv : getVideoList d with e | page
        · simp only [hv] at h
          exact Outcome.noConfusion h
        · simp only [hv] at h
          by_cases hc : (acc ++ page).length < limit
          · simp only [if_pos hc] at h
            obtain ⟨c0, h0, -⟩ := Outcome.addCalls_eq_ok h
            exact ih net limit (acc ++ page) (k + 1) ret sh c0 h0
          · simp only [if_neg hc] at h
            obtain ⟨hret, hsh, -⟩ := Outcome.ok.inj h
            subst hsh
            exact ⟨hret.symm, by omega⟩

/-- Every normal return of `LikeeScraper.get_trending_hashtags` is the
truncation of the final accumulator. -/
lemma ght_ok_inv : ∀ (fuel : Nat) (net : Nat → HttpOutcome) (limit : Nat)
    (acc : List Item) (k : Nat) (ret sh : List Item) (c : Nat),
    LikeeScraper.get_trending_hashtags net limit acc k fuel = .ok ret sh c →
    ret = sh.take limit := by
  intro fuel
  induction fuel with
  | zero =>
    intro net limit acc k ret sh c h
    simp [LikeeScraper.get_trending_hashtags] at h
  | succ fuel ih =>
    intro net limit acc k ret sh c h
    rcases hm : LikeeScraper.make_post_request (net k) with e | resp
    · simp only [LikeeScraper.get_trending_hashtags, hm] at h
      exact Outcome.noConfusion h
    · simp only [LikeeScraper.get_trending_hashtags, hm] at h
      rcases hd : getData resp with e | d
      · simp only [hd] at h
        exact Outcome.noConfusion h
      · simp only [hd] at h
        rcases hv : getEventList d with e | page
        · simp only [hv] at h
          exact Outcome.noConfusion h
        · simp only [hv] at h
          by_cases hc : (acc ++ page).length < limit ∧ 0 < page.length
          · simp only [if_pos hc] at h
            obtain ⟨c0, h0, -⟩ := Outcome.addCalls_eq_ok h
            exact ih net limit (acc ++ page) (k + 1) ret sh c0 h0
          · simp only [if_neg hc] at h
            obtain ⟨hret, hsh, -⟩ := Outcome.ok.inj h
            subst hsh
            exact hret.symm

/-- A run of `LikeeScraper.get_user_videos` started with an accumulator that
already holds at least `limit` items returns its first `limit` items after a
single transport call (whenever it returns at all). -/
lemma guv_from_full (net : Nat → HttpOutcome) (limit : Nat) (acc : List Item)
    (k fuel : Nat) (ret sh : List Item) (c : Nat)
    (hfull : limit ≤ acc.length)
    (h : LikeeScraper.get_user_videos net limit acc k fuel = .ok ret sh c) :
    ret = acc.take limit ∧ c = 1 := by
  cases fuel with
  | zero => simp [LikeeScraper.get_user_videos] at h
  | succ fuel =>
    rcases hm : LikeeScraper.make_post_request (net k) with e | resp
    · simp only [LikeeScraper.get_user_videos, hm] at h
      exact Outcome.noConfusion h
    · simp only [LikeeScraper.get_user_videos, hm] at h
      rcases hd : getData resp with e | d
      · simp only [hd] at h
        exact Outcome.noConfusion h
      · simp only [hd] at h
        rcases hv : getVideoList d with e | page
        · simp only [hv] at h
          exact Outcome.noConfusion h
        · simp only [hv] at h
          have hc : ¬((acc ++ page).length < limit ∧ 0 < resp.dictLen) := by
            simp only [List.length_append]
            omega
          simp only [if_neg hc] at h
          obtain ⟨hret, hsh, hcall⟩ := Outcome.ok.inj h
          exact ⟨hret.symm.trans (List.take_append_of_le_length hfull),
            hcall.symm⟩

/-- Analogue of `guv_from_full` for `LikeeScraper.get_trending_videos`. -/
lemma gtv_from_full (net : Nat → HttpOutcome) (limit : Nat) (acc : List Item)
    (k fuel : Nat) (ret sh : List Item) (c : Nat)
    (hfull : limit ≤ acc.length)
    (h : LikeeScraper.get_trending_videos net limit acc k fuel = .ok ret sh c) :
    ret = acc.take limit ∧ c = 1 := by
  cases fuel with
  | zero => simp [LikeeScraper.get_trending_videos] at h
  | succ fuel =>
    rcases hm : LikeeScraper.make_post_request (net k) with e | resp
    · simp only [LikeeScraper.get_trending_videos, hm] at h
      exact Outcome.noConfusion h
    · simp only [LikeeScraper.get_trending_videos, hm] at h
      rcases hd : getData resp with e | d
      · simp only [hd] at h
        exact Outcome.noConfusion h
      · simp only [hd] at h
        rcases hv : getVideoList d with e | page
        · simp only [hv] at h
          exact Outcome.noConfusion h
        · simp only [hv] at h
          have hc : ¬((acc ++ page).length < limit) := by
            simp only [List.length_append]
            omega
          simp only [if_neg hc] at h
          obtain ⟨hret, hsh, hcall⟩ := Outcome.ok.inj h
          exact ⟨hret.symm.trans (List.take_append_of_le_length hfull),
            hcall.symm⟩

/-- Analogue of `guv_from_full` for `LikeeScraper.get_hashtag_videos`. -/
lemma ghv_from_full (net : Nat → HttpOutcome) (limit : Nat) (acc : List Item)
    (k fuel : Nat) (ret sh : List Item) (c : Nat)
    (hfull : limit ≤ acc.length)
    (h : LikeeScraper.get_hashtag_videos net limit acc k fuel = .ok ret sh c) :
    ret = acc.take limit ∧ c = 1 := by
  cases fuel with
  | zero => simp [LikeeScraper.get_hashtag_videos] at h
  | succ fuel =>
    rcases hm : LikeeScraper.make_post_request (net k) with e | resp
    · simp only [LikeeScraper.get_hashtag_videos, hm] at h
      exact Outcome.noConfusion h
    · simp only [LikeeScraper.get_hashtag_videos, hm] at h
      rcases hd : getData resp with e | d
      · simp only [hd] at h
        exact Outcome.noConfusion h
      · simp only [hd] at h
        rcases hv : getVideoList d with e | page
        · simp only [hv] at h
          exact Outcome.noConfusion h
        · simp only [hv] at h
          have hc : ¬((acc ++ page).length < limit) := by
            simp only [List.length_append]
            omega
          simp only [if_neg hc] at h
          obtain ⟨hret, hsh, hcall⟩ := Outcome.ok.inj h
          exact ⟨hret.symm.trans (List.take_append_of_le_length hfull),
            hcall.symm⟩

/-- Every normal return of `src/api.py`'s `get_trending_videos` with a
truthy numeric limit is the truncation of the final accumulator, whose
length has reached the limit. -/
lemma rgtv_ok_inv : ∀ (fuel : Nat) (net : Nat → Nat × Body) (L : Nat)
    (acc : List Item) (k : Nat) (ret sh : List Item) (c : Nat), L ≠ 0 →
    RootApi.get_trending_videos net (some L) acc k fuel = .ok ret sh c →
    ret = sh.take L ∧ L ≤ sh.length := by
  intro fuel
  induction fuel with
  | zero =>
    intro net L acc k ret sh c hL h
    simp [RootApi.get_trending_videos] at h
  | succ fuel ih =>
    intro net L acc k ret sh c hL h
    rcases hm : RootApi.make_post_request (net k).1 (net k).2 with e | resp
    · simp only [RootApi.get_trending_videos, hm] at h
      exact Outcome.noConfusion h
    · simp only [RootApi.get_trending_videos, hm] at h
      rcases hd : getData resp with e | d
      · simp only [hd] at h
        exact Outcome.noConfusion h
      · simp only [hd] at h
        rcases hv : getVideoList d with e | page
        · simp only [hv] at h
          exact Outcome.noConfusion h
        · simp only [hv] at h
          simp only [RootApi.pyTruthy, ne_eq, hL, not_false_eq_true,
            decide_True, if_true, Option.getD_some] at h
          by_cases hc : (acc ++ page).length < L
          · simp only [if_pos hc] at h
            rcases hl : (acc ++ page).getLast? with _ | x
            · simp only [hl] at h
              exact Outcome.noConfusion h
            · simp only [hl] at h
              obtain ⟨c0, h0, -⟩ := Outcome.addCalls_eq_ok h
              exact ih net L (acc ++ page) (k + 1) ret sh c0 hL h0
          · simp only [if_neg hc] at h
            obtain ⟨hret, hsh, -⟩ := Outcome.ok.inj h
            subst hsh
            exact ⟨hret.symm, by omega⟩

/-- Analogue of `guv_from_full` for `src/api.py`'s `get_trending_videos`
with a truthy numeric limit. -/
lemma rgtv_from_full (net : Nat → Nat × Body) (L : Nat) (acc : List Item)
    (k fuel : Nat) (ret sh : List Item) (c : Nat) (hL : L ≠ 0)
    (hfull : L ≤ acc.length)
    (h : RootApi.get_trending_videos net (some L) acc k fuel = .ok ret sh c) :
    ret = acc.take L ∧ c = 1 := by
  cases fuel with
  | zero => simp [RootApi.get_trending_videos] at h
  | succ fuel =>
    rcases hm : RootApi.make_post_request (net k).1 (net k).2 with e | resp
    · simp only [RootApi.get_trending_videos, hm] at h
      exact Outcome.noConfusion h
    · simp only [RootApi.get_trending_videos, hm] at h
      rcases hd : getData resp with e | d
      · simp only [hd] at h
        exact Outcome.noConfusion h
      · simp only [hd] at h
        rcases hv : getVideoList d with e | page
        · simp only [hv] at h
          exact Outcome.noConfusion h
        · simp only [hv] at h
          simp only [RootApi.pyTruthy, ne_eq, hL, not_false_eq_true,
            decide_True, if_true, Option.getD_some] at h
          have hc : ¬((acc ++ page).length < L) := by
            simp only [List.length_append]
            omega
          simp only [if_neg hc] at h
          obtain ⟨hret, hsh, hcall⟩ := Outcome.ok.inj h
          exact ⟨hret.symm.trans (List.take_append_of_le_length hfull),
            hcall.symm⟩

lemma pagesJoin_succ_right (pg : Nat → List Item) :
    ∀ (m k : Nat), pagesJoin pg k (m + 1) = pagesJoin pg k m ++ pg (k + m) := by
  intro m
  induction m with
  | zero => intro k; simp [pagesJoin]
  | succ m ih =>
    intro k
    have hidx : k + 1 + m = k + (m + 1) := by omega
    show pg k ++ pagesJoin pg (k + 1) (m + 1) =
      (pg k ++ pagesJoin pg (k + 1) m) ++ pg (k + (m + 1))
    rw [ih (k + 1), hidx, List.append_assoc]

lemma pagesJoin_add (pg : Nat → List Item) :
    ∀ (a k b : Nat),
      pagesJoin pg k (a + b) = pagesJoin pg k a ++ pagesJoin pg (k + a) b := by
  intro a
  induction a with
  | zero => intro k b; simp [pagesJoin]
  | succ a ih =>
    intro k b
    have h1 : a + 1 + b = (a + b) + 1 := by omega
    have hidx : k + 1 + a = k + (a + 1) := by omega
    rw [h1]
    show pg k ++ pagesJoin pg (k + 1) (a + b) =
      (pg k ++ pagesJoin pg (k + 1) a) ++ pagesJoin pg (k + (a + 1)) b
    rw [ih (k + 1) b, hidx, List.append_assoc]

/-- One successful step of `LikeeScraper.get_trending_hashtags` under a
mocked transport. -/
lemma ght_mock_step (pg : Nat → List Item) (limit : Nat) (acc : List Item)
    (k fuel : Nat) :
    LikeeScraper.get_trending_hashtags (mockNet pg) limit acc k (fuel + 1) =
      if (acc ++ pg k).length < limit ∧ 0 < (pg k).length then
        (LikeeScraper.get_trending_hashtags (mockNet pg) limit (acc ++ pg k)
          (k + 1) fuel).addCalls 1
      else .ok ((acc ++ pg k).take limit) (acc ++ pg k) 1 := by
  simp [LikeeScraper.get_trending_hashtags, mockNet, mockBody,
    LikeeScraper.make_post_request, validate_response, getData, getEventList]

/-- Full characterisation of a `get_trending_hashtags` run against a mocked
source whose pages `k, ..., k+m-1` are nonempty and whose page `k+m` is
empty: the run returns the first `limit` items of the concatenation of the
nonempty pages (on top of the incoming accumulator), having consumed some
`n ≤ m + 1` pages; and it either filled the limit or consumed all pages up
to the empty one. -/
lemma ght_run (pg : Nat → List Item) (limit : Nat) :
    ∀ (m : Nat) (acc : List Item) (k fuel : Nat),
    (∀ j, j < m → pg (k + j) ≠ []) → pg (k + m) = [] → m + 1 ≤ fuel →
    ∃ n c, 1 ≤ n ∧ n ≤ m + 1 ∧
      LikeeScraper.get_trending_hashtags (mockNet pg) limit acc k fuel =
        .ok ((acc ++ pagesJoin pg k m).take limit)
          (acc ++ pagesJoin pg k n) c ∧
      (limit ≤ (acc ++ pagesJoin pg k n).length ∨ n = m + 1) := by
  intro m
  induction m with
  | zero =>
    intro acc k fuel h1 h2 hfuel
    obtain ⟨f, rfl⟩ : ∃ f, fuel = f + 1 := ⟨fuel - 1, by omega⟩
    have hk : pg k = [] := by simpa using h2
    refine ⟨1, 1, le_refl 1, le_refl 1, ?_, Or.inr rfl⟩
    rw [ght_mock_step, hk]
    simp [pagesJoin, hk]
  | succ m ih =>
    intro acc k fuel h1 h2 hfuel
    obtain ⟨f, rfl⟩ : ∃ f, fuel = f + 1 := ⟨fuel - 1, by omega⟩
    have hk : pg k ≠ [] := by simpa using h1 0 (by omega)
    by_cases hlen : (acc ++ pg k).length < limit
    · have hj1 : ∀ j, j < m → pg (k + 1 + j) ≠ [] := by
        intro j hj
        have := h1 (j + 1) (by omega)
        simpa [show k + (j + 1) = k + 1 + j by omega] using this
      have hj2 : pg (k + 1 + m) = [] := by
        simpa [show k + (m + 1) = k + 1 + m by omega] using h2
      obtain ⟨n, c, hn1, hn2, hrun, hdisj⟩ :=
        ih (acc ++ pg k) (k + 1) f hj1 hj2 (by omega)
      refine ⟨n + 1, c + 1, by omega, by omega, ?_, ?_⟩
      · rw [ght_mock_step, if_pos ⟨hlen, List.length_pos.mpr hk⟩, hrun]
        simp [Outcome.addCalls, pagesJoin, List.append_assoc]
      · rcases hdisj with hle | hn
        · left
          have hsame : (acc ++ pagesJoin pg k (n + 1)).length =
              ((acc ++ pg k) ++ pagesJoin pg (k + 1) n).length := by
            simp [pagesJoin, List.append_assoc]
          omega
        · right
          omega
    · refine ⟨1, 1, le_refl 1, by omega, ?_, Or.inl ?_⟩
      · rw [ght_mock_step, if_neg (by tauto)]
        have hle : limit ≤ (acc ++ pg k).length := by omega
        have h3 : acc ++ pagesJoin pg k (m + 1) =
            (acc ++ pg k) ++ pagesJoin pg (k + 1) m := by
          simp [pagesJoin, List.append_assoc]
        have h4 : acc ++ pagesJoin pg k 1 = acc ++ pg k := by
          simp [pagesJoin]
        rw [h3, h4, List.take_append_of_le_length hle]
      · have h4 : acc ++ pagesJoin pg k 1 = acc ++ pg k := by
          simp [pagesJoin]
        rw [h4]
        omega

/-- Against a mocked source whose pages `k, ..., k+m-1` are nonempty and
together (on top of the incoming accumulator) supply at least `limit`
items, `get_user_videos` returns the first `limit` items of the
accumulated concatenation. -/
lemma guv_run (pg : Nat → List Item) (limit : Nat) :
    ∀ (m : Nat) (acc : List Item) (k fuel : Nat),
    (∀ j, j < m → pg (k + j) ≠ []) →
    limit ≤ (acc ++ pagesJoin pg k m).length → m + 1 ≤ fuel →
    ∃ sh c, LikeeScraper.get_user_videos (mockNet pg) limit acc k fuel =
      .ok ((acc ++ pagesJoin pg k m).take limit) sh c := by
  intro m
  induction m with
  | zero =>
    intro acc k fuel h1 h2 hfuel
    obtain ⟨f, rfl⟩ : ∃ f, fuel = f + 1 := ⟨fuel - 1, by omega⟩
    have h2a : limit ≤ acc.length := by
      simpa [pagesJoin] using h2
    have hstop : ¬((acc ++ pg k).length < limit) := by
      simp only [List.length_append]
      omega
    refine ⟨acc ++ pg k, 1, ?_⟩
    rw [guv_mock_step, if_neg hstop]
    have h3 : acc ++ pagesJoin pg k 0 = acc := by simp [pagesJoin]
    rw [h3, List.take_append_of_le_length h2a]
  | succ m ih =>
    intro acc k fuel h1 h2 hfuel
    obtain ⟨f, rfl⟩ : ∃ f, fuel = f + 1 := ⟨fuel - 1, by omega⟩
    have hk : pg k ≠ [] := by simpa using h1 0 (by omega)
    have hsplit : acc ++ pagesJoin pg k (m + 1) =
        (acc ++ pg k) ++ pagesJoin pg (k + 1) m := by
      simp [pagesJoin, List.append_assoc]
    by_cases hlen : (acc ++ pg k).length < limit
    · have hj1 : ∀ j, j < m → pg (k + 1 + j) ≠ [] := by
        intro j hj
        have := h1 (j + 1) (by omega)
        simpa [show k + (j + 1) = k + 1 + j by omega] using this
      have h2b : limit ≤ ((acc ++ pg k) ++ pagesJoin pg (k + 1) m).length := by
        rw [← hsplit]
        exact h2
      obtain ⟨sh, c, hrun⟩ := ih (acc ++ pg k) (k + 1) f hj1 h2b (by omega)
      have hne : acc ++ pg k ≠ [] := by
        simp [hk]
      obtain ⟨x, hx⟩ := Option.isSome_iff_exists.mp
        (List.getLast?_isSome.mpr hne)
      refine ⟨sh, c + 1, ?_⟩
      rw [guv_mock_step, if_pos hlen, hx, hrun]
      rw [hsplit]
      rfl
    · refine ⟨acc ++ pg k, 1, ?_⟩
      rw [guv_mock_step, if_neg hlen]
      have hle : limit ≤ (acc ++ pg k).length := by omega
      rw [hsplit, List.take_append_of_le_length hle]

/-- One successful step of `LikeeScraper.get_trending_videos` under a mocked
transport. -/
lemma gtv_mock_step (pg : Nat → List Item) (limit : Nat) (acc : List Item)
    (k fuel : Nat) :
    LikeeScraper.get_trending_videos (mockNet pg) limit acc k (fuel + 1) =
      if (acc ++ pg k).length < limit then
        match (acc ++ pg k).getLast? with
        | none => .err .indexError 1
        | some _ =>
          (LikeeScraper.get_trending_videos (mockNet pg) limit (acc ++ pg k)
            (k + 1) fuel).addCalls 1
      else .ok ((acc ++ pg k).take limit) (acc ++ pg k) 1 := by
  simp [LikeeScraper.get_trending_videos, mockNet, mockBody,
    LikeeScraper.make_post_request, validate_response, getData, getVideoList]

/-- One successful step of `LikeeScraper.get_hashtag_videos` under a mocked
transport. -/
lemma ghv_mock_step (pg : Nat → List Item) (limit : Nat) (acc : List Item)
    (k fuel : Nat) :
    LikeeScraper.get_hashtag_videos (mockNet pg) limit acc k (fuel + 1) =
      if (acc ++ pg k).length < limit then
        (LikeeScraper.get_hashtag_videos (mockNet pg) limit (acc ++ pg k)
          (k + 1) fuel).addCalls 1
      else .ok ((acc ++ pg k).take limit) (acc ++ pg k) 1 := by
  simp [LikeeScraper.get_hashtag_videos, mockNet, mockBody,
    LikeeScraper.make_post_request, validate_response, getData, getVideoList]

/-- Once the source is exhausted (all pages from `k0` on are empty) while
the accumulator is nonempty but still short of the limit,
`get_trending_videos` recurses forever: it consumes any amount of fuel. -/
lemma gtv_diverges (pg : Nat → List Item) (limit : Nat) (acc : List Item)
    (k0 : Nat) (hpg : ∀ j, k0 ≤ j → pg j = []) (hacc : acc ≠ [])
    (hlen : acc.length < limit) :
    ∀ (fuel k : Nat), k0 ≤ k →
      LikeeScraper.get_trending_videos (mockNet pg) limit acc k fuel =
        .outOfFuel fuel := by
  intro fuel
  induction fuel with
  | zero => intro k hk; rfl
  | succ fuel ih =>
    intro k hk
    rw [gtv_mock_step, hpg k hk, List.append_nil]
    rw [if_pos hlen]
    obtain ⟨x, hx⟩ := Option.isSome_iff_exists.mp
      (List.getLast?_isSome.mpr hacc)
    rw [hx, ih (k + 1) (by omega)]
    rfl

/-- Analogue of `gtv_diverges` for `get_user_videos`: the `len(response) > 0`
conjunct never fires because the mocked response dict is never empty. -/
lemma guv_diverges (pg : Nat → List Item) (limit : Nat) (acc : List Item)
    (k0 : Nat) (hpg : ∀ j, k0 ≤ j → pg j = []) (hacc : acc ≠ [])
    (hlen : acc.length < limit) :
    ∀ (fuel k : Nat), k0 ≤ k →
      LikeeScraper.get_user_videos (mockNet pg) limit acc k fuel =
        .outOfFuel fuel := by
  intro fuel
  induction fuel with
  | zero => intro k hk; rfl
  | succ fuel ih =>
    intro k hk
    rw [guv_mock_step, hpg k hk, List.append_nil]
    rw [if_pos hlen]
    obtain ⟨x, hx⟩ := Option.isSome_iff_exists.mp
      (List.getLast?_isSome.mpr hacc)
    rw [hx, ih (k + 1) (by omega)]
    rfl

/-- Analogue of `gtv_diverges` for `get_hashtag_videos`. -/
lemma ghv_diverges (pg : Nat → List Item) (limit : Nat) (acc : List Item)
    (k0 : Nat) (hpg : ∀ j, k0 ≤ j → pg j = [])
    (hlen : acc.length < limit) :
    ∀ (fuel k : Nat), k0 ≤ k →
      LikeeScraper.get_hashtag_videos (mockNet pg) limit acc k fuel =
        .outOfFuel fuel := by
  intro fuel
  induction fuel with
  | zero => intro k hk; rfl
  | succ fuel ih =>
    intro k hk
    rw [ghv_mock_step, hpg k hk, List.append_nil]
    rw [if_pos hlen]
    rw [ih (k + 1) (by omega)]
    rfl

/-- When the next poll of the collaborator ends in the same trailing element
as the previous one, the scrolling loop stops at once and hands that poll's
elements to the comment builder. -/
lemma comments_loop_break (polls : Nat → List Elem) (limit : Int)
    (elements : List Elem) (last_elem : Elem) (i fuel : Nat)
    (hlt : (elements.length : Int) < limit)
    (hlast : (polls i).getLast? = some last_elem) :
    comments_loop polls limit elements last_elem i (fuel + 1) =
      .ok (polls i) 1 := by
  simp [comments_loop.eq_def, hlt, hlast]

/-- When the accumulated elements have already reached the limit, the
scrolling loop does not poll at all. -/
lemma comments_loop_done (polls : Nat → List Elem) (limit : Int)
    (elements : List Elem) (last_elem : Elem) (i fuel : Nat)
    (hge : ¬((elements.length : Int) < limit)) :
    comments_loop polls limit elements last_elem i fuel = .ok elements 0 := by
  simp [comments_loop.eq_def, hge]

/-- Every normal return of `LikeeScraper.get_video_comments` is built from
`elements[:min(limit, num_comments)]`. -/
lemma gvc_ok_inv : ∀ (page : CommentsPage) (limit : Int) (fuel : Nat)
    (comments : List Comment),
    LikeeScraper.get_video_comments page limit fuel = .ok comments →
    ∃ els num, parseCount page = .ok num ∧
      comments = (pyTake els (min limit num)).map mk_comment := by
  intro page limit fuel comments h
  unfold LikeeScraper.get_video_comments at h
  rcases h0 : page.videoCards.head? with _ | c0
  · simp only [h0] at h
    exact CommentsRes.noConfusion h
  · simp only [h0] at h
    rcases h1 : firstToken page.countText with e | tok
    · simp only [h1] at h
      exact CommentsRes.noConfusion h
    · simp only [h1] at h
      rcases h2 : parse_comments_count tok with e | num
      · simp only [h2] at h
        exact CommentsRes.noConfusion h
      · simp only [h2] at h
        rcases h3 : (page.polls 0).head? with _ | first
        · simp only [h3] at h
          exact CommentsRes.noConfusion h
        · simp only [h3] at h
          rcases h4 : (page.polls 0).getLast? with _ | last0
          · simp only [h4] at h
            exact CommentsRes.noConfusion h
          · simp only [h4] at h
            rcases h5 : comments_loop page.polls (min limit num)
                (page.polls 0) last0 1 fuel with ⟨els, np⟩ | ⟨e, np⟩ | np
            · simp only [h5] at h
              obtain rfl := (CommentsRes.ok.inj h).symm
              exact ⟨els, num, by simp [parseCount, h1, h2], rfl⟩
            · simp only [h5] at h
              exact CommentsRes.noConfusion h
            · simp only [h5] at h
              exact CommentsRes.noConfusion h

lemma pyTake_length_le {α : Type} (l : List α) (n : Int) (hn : 0 ≤ n) :
    ((pyTake l n).length : Int) ≤ n := by
  unfold pyTake
  rw [if_pos hn]
  have h1 : (l.take n.toNat).length ≤ n.toNat := List.length_take_le _ _
  omega

/-- `LikeeScraper.get_video_comments` never returns more comments than a
nonnegative requested limit, provided the displayed comment count parses to
a nonnegative number. -/
lemma gvc_le_limit (page : CommentsPage) (limit : Int) (fuel : Nat)
    (comments : List Comment)
    (hnum : ∀ n, parseCount page = .ok n → 0 ≤ n) (hlim : 0 ≤ limit)
    (h : LikeeScraper.get_video_comments page limit fuel = .ok comments) :
    (comments.length : Int) ≤ limit := by
  obtain ⟨els, num, hpc, rfl⟩ := gvc_ok_inv page limit fuel comments h
  have h0 := hnum num hpc
  have hmin : (0 : Int) ≤ min limit num := le_min hlim h0
  have h2 := pyTake_length_le els (min limit num) hmin
  have h3 : min limit num ≤ limit := min_le_left _ _
  simp only [List.length_map]
  omega

/-- The validator accepts a body whose present signalling fields carry their
success tokens. -/
lemma validate_response_pass {b : Body}
    (h1 : ∀ s, b.message = some s → s = "ok")
    (h2 : ∀ s, b.msg = some s → s = "success") :
    validate_response b = b := by
  unfold validate_response
  rw [if_neg, if_neg]
  · rintro ⟨hsome, hne⟩
    rcases ho : b.msg with _ | t
    · rw [ho] at hsome
      simp at hsome
    · exact hne (by rw [ho, h2 t ho])
  · rintro ⟨hsome, hne⟩
    rcases ho : b.message with _ | t
    · rw [ho] at hsome
      simp at hsome
    · exact hne (by rw [ho, h1 t ho])

/-- The validator maps any body with a failing present signalling field to
the empty dict. -/
lemma validate_response_fail {b : Body}
    (h : ¬((∀ s, b.message = some s → s = "ok") ∧
           (∀ s, b.msg = some s → s = "success"))) :
    validate_response b = emptyBody := by
  unfold validate_response
  by_cases h1 : b.message.isSome ∧ b.message ≠ some "ok"
  · rw [if_pos h1]
  · rw [if_neg h1]
    by_cases h2 : b.msg.isSome ∧ b.msg ≠ some "success"
    · rw [if_pos h2]
    · exfalso
      apply h
      push_neg at h1 h2
      constructor
      · intro s hs
        have hok := h1 (by simp [hs])
        rw [hs] at hok
        exact Option.some.inj hok
      · intro s hs
        have hok := h2 (by simp [hs])
        rw [hs] at hok
        exact Option.some.inj hok

/-- A body returned unchanged by the validator has passing signalling
fields. -/
lemma validate_response_eq_self {b : Body} (hv : validate_response b = b) :
    (∀ s, b.message = some s → s = "ok") ∧
    (∀ s, b.msg = some s → s = "success") := by
  by_contra h
  have he : b = emptyBody := hv.symm.trans (validate_response_fail h)
  apply h
  rw [he]
  constructor <;> intro s hs <;> simp [emptyBody] at hs

/-- C4: the validator returns a decoded body unchanged exactly when any
present `message` field equals `"ok"` and any present `msg` field equals
`"success"`; when either present field differs from its success token the
result is the empty mapping; and in particular a body with
`message = "ok"` is accepted, one with `message = "error"` is rejected, and
a body with neither field is accepted. -/
theorem c4_validator_spec :
    (∀ b : Body,
      (validate_response b = b ↔
        ((∀ s, b.message = some s → s = "ok") ∧
         (∀ s, b.msg = some s → s = "success"))) ∧
      (¬((∀ s, b.message = some s → s = "ok") ∧
         (∀ s, b.msg = some s → s = "success")) →
        validate_response b = emptyBody)) ∧
    validate_response { message := some "ok" } = { message := some "ok" } ∧
    validate_response { message := some "error" } = emptyBody ∧
    validate_response {} = ({} : Body) := by
  refine ⟨?_, by decide, by decide, by decide⟩
  intro b
  exact ⟨⟨validate_response_eq_self,
    fun h => validate_response_pass h.1 h.2⟩, validate_response_fail⟩

/-- C4 witness: the theorem applied to the concrete body
`{message: "error"}`, discharging the failure hypothesis. -/
theorem c4_validator_spec_witness :
    validate_response { message := some "error" } = emptyBody :=
  (c4_validator_spec.1 { message := some "error" }).2
    (by rintro ⟨h1, -⟩; exact absurd (h1 "error" rfl) (by decide))

/-- C5: contrary to the claim, `make_post_request` can raise: the
`LikeeScraper` version propagates `requests.exceptions.Timeout` (there is
no try/except around `requests.post`), and the `src/api.py` version raises
`NameError` on a non-200 status because its print statement references the
undefined name `status_code`.  Only the `LikeeScraper` non-200 branch
behaves as claimed, logging and returning the empty mapping. -/
theorem c5_transport_failures :
    LikeeScraper.make_post_request .timeout = .error .timeoutError ∧
    RootApi.make_post_request 500 (mockBody [⟨1⟩]) = .error .nameError ∧
    LikeeScraper.make_post_request (.response 404 (mockBody [⟨1⟩])) =
      .ok emptyBody :=
  ⟨rfl, rfl, rfl⟩

/-- C3: contrary to the claim, a failed page does not end the run
gracefully: the `{}` failure sentinel makes `response['data']` raise
`KeyError`, so the pagination run raises instead of returning the items
accumulated so far.  This holds for an HTTP failure on the first page, for
a validation failure on the first page (in both module versions), and for a
failure after a successful first page, where the two accumulated items are
lost. -/
theorem c3_failure_sentinel_raises :
    LikeeScraper.get_user_videos (fun _ => .response 500 emptyBody)
      10 [] 0 5 = .err .keyError 1 ∧
    LikeeScraper.get_user_videos
      (fun _ => .response 200 { message := some "error" }) 10 [] 0 5 =
      .err .keyError 1 ∧
    RootApi.get_trending_videos (fun _ => (200, { message := some "error" }))
      (some 10) [] 0 5 = .err .keyError 1 ∧
    LikeeScraper.get_user_videos
      (fun k => if k = 0 then .response 200 (mockBody [⟨1⟩, ⟨2⟩])
                else .response 500 emptyBody) 10 [] 0 5 =
      .err .keyError 2 := by
  refine ⟨by decide, by decide, by decide, by decide⟩

/-- C9: the pause slept between consecutive pagination calls equals the
configured base pause plus the value drawn by `random.random()`; for any
draw `r` in `[0, 1)` the wait is at least the base pause and strictly less
than the base pause plus one, and the default base pause is 3 seconds. -/
theorem c9_pause_bounds (base r : ℚ) (h0 : 0 ≤ r) (h1 : r < 1) :
    base ≤ pause_duration base r ∧ pause_duration base r < base + 1 ∧
    default_pause_seconds = 3 := by
  unfold pause_duration default_pause_seconds
  refine ⟨by linarith, by linarith, rfl⟩

/-- C9 witness: the bounds at the default base pause of 3 and the concrete
draw 1/2. -/
theorem c9_pause_bounds_witness :
    (3 : ℚ) ≤ pause_duration 3 (1/2) ∧ pause_duration 3 (1/2) < 3 + 1 ∧
    default_pause_seconds = 3 :=
  c9_pause_bounds 3 (1/2) (by norm_num) (by norm_num)

/-- C10: `download_video` never fetches the caller-supplied URL itself but
the URL with every occurrence of `_4` removed (shown concretely on the
repository's own test URL, where the fetched URL differs from the input),
and on a timeout it returns after logging, without writing the output
file. -/
theorem c10_download_watermark :
    (∀ (net : String → Option String) (url fp : String),
      (LikeeScraper.download_video net url fp).head? =
        some (.httpGet (watermark_removed url)) ∧
      (net (watermark_removed url) = none →
        ∀ p c, DlStep.wrote p c ∉ LikeeScraper.download_video net url fp)) ∧
    watermark_removed "1KWxuO_4.mp4?crc=2299292943&type=5" =
      "1KWxuO.mp4?crc=2299292943&type=5" ∧
    watermark_removed "1KWxuO_4.mp4?crc=2299292943&type=5" ≠
      "1KWxuO_4.mp4?crc=2299292943&type=5" := by
  refine ⟨?_, by decide, by decide⟩
  intro net url fp
  rcases h : net (watermark_removed url) with _ | content
  · constructor
    · simp [LikeeScraper.download_video, h]
    · intro _ p c hc
      simp [LikeeScraper.download_video, h] at hc
  · constructor
    · simp [LikeeScraper.download_video, h]
    · intro hnone
      exact Option.noConfusion hnone


/-- C10 witness: the theorem applied to a timing-out network and the
concrete URL `a_4b`, discharging the timeout hypothesis. -/
theorem c10_download_watermark_witness :
    DlStep.wrote "f.mp4" "xyz" ∉
      LikeeScraper.download_video (fun _ => none) "a_4b" "f.mp4" :=
  (c10_download_watermark.1 (fun _ => none) "a_4b" "f.mp4").2 rfl "f.mp4" "xyz"

lemma c1pg_empty : ∀ j, 1 ≤ j → c1pg j = [] := by
  intro j hj
  have hne : j ≠ 0 := by omega
  simp [c1pg, hne]

/-- C1: contrary to the claim, with a mocked transport whose pages become
empty at page K = 2 and a requested limit of 5, three of the four
list-fetching operations never transition to DONE: `get_trending_videos`,
`get_user_videos` and `get_hashtag_videos` keep recursing with an unchanged
cursor and consume any amount of fuel (in Python, unbounded recursion).
Only `get_trending_hashtags` stops at page K, after exactly 2 transport
calls. -/
theorem c1_exhaustion_termination :
    (∀ fuel : Nat,
      LikeeScraper.get_trending_videos (mockNet c1pg) 5 [] 0 fuel =
        .outOfFuel fuel) ∧
    (∀ fuel : Nat,
      LikeeScraper.get_user_videos (mockNet c1pg) 5 [] 0 fuel =
        .outOfFuel fuel) ∧
    (∀ fuel : Nat,
      LikeeScraper.get_hashtag_videos (mockNet c1pg) 5 [] 0 fuel =
        .outOfFuel fuel) ∧
    LikeeScraper.get_trending_hashtags (mockNet c1pg) 5 [] 0 9 =
      .ok [⟨1⟩, ⟨2⟩, ⟨3⟩] [⟨1⟩, ⟨2⟩, ⟨3⟩] 2 := by
  refine ⟨?_, ?_, ?_, by decide⟩
  · intro fuel
    cases fuel with
    | zero => rfl
    | succ f =>
      have hstep :
          LikeeScraper.get_trending_videos (mockNet c1pg) 5 [] 0 (f + 1) =
            (LikeeScraper.get_trending_videos (mockNet c1pg) 5
              [⟨1⟩, ⟨2⟩, ⟨3⟩] 1 f).addCalls 1 := rfl
      rw [hstep, gtv_diverges c1pg 5 [⟨1⟩, ⟨2⟩, ⟨3⟩] 1 c1pg_empty
        (by decide) (by decide) f 1 (le_refl 1)]
      rfl
  · intro fuel
    cases fuel with
    | zero => rfl
    | succ f =>
      have hstep :
          LikeeScraper.get_user_videos (mockNet c1pg) 5 [] 0 (f + 1) =
            (LikeeScraper.get_user_videos (mockNet c1pg) 5
              [⟨1⟩, ⟨2⟩, ⟨3⟩] 1 f).addCalls 1 := rfl
      rw [hstep, guv_diverges c1pg 5 [⟨1⟩, ⟨2⟩, ⟨3⟩] 1 c1pg_empty
        (by decide) (by decide) f 1 (le_refl 1)]
      rfl
  · intro fuel
    cases fuel with
    | zero => rfl
    | succ f =>
      have hstep :
          LikeeScraper.get_hashtag_videos (mockNet c1pg) 5 [] 0 (f + 1) =
            (LikeeScraper.get_hashtag_videos (mockNet c1pg) 5
              [⟨1⟩, ⟨2⟩, ⟨3⟩] 1 f).addCalls 1 := rfl
      rw [hstep, ghv_diverges c1pg 5 [⟨1⟩, ⟨2⟩, ⟨3⟩] 1 c1pg_empty
        (by decide) f 1 (le_refl 1)]
      rfl

/-- C7: the comment-scrolling loop stops as soon as a poll ends in the same
trailing element as the previous one (returning that poll's elements after
exactly one further poll), stops without polling once the accumulated count
has reached the limit, and in the concrete scenario — limit 5, the
collaborator returning the same 3 elements on two successive polls —
`get_video_comments` returns exactly 3 comments. -/
theorem c7_comment_loop_stops :
    (∀ (polls : Nat → List Elem) (limit : Int) (elements : List Elem)
       (last_elem : Elem) (i fuel : Nat),
       (elements.length : Int) < limit →
       (polls i).getLast? = some last_elem →
       comments_loop polls limit elements last_elem i (fuel + 1) =
         .ok (polls i) 1) ∧
    (∀ (polls : Nat → List Elem) (limit : Int) (elements : List Elem)
       (last_elem : Elem) (i fuel : Nat),
       ¬((elements.length : Int) < limit) →
       comments_loop polls limit elements last_elem i fuel =
         .ok elements 0) ∧
    LikeeScraper.get_video_comments c7page 5 10 =
      .ok [mk_comment { eid := 1 }, mk_comment { eid := 2 },
        mk_comment { eid := 3 }] :=
  ⟨comments_loop_break, comments_loop_done, by decide⟩

/-- C7 witness: the loop-stopping clause applied to a concrete collaborator
returning the single element 7 twice in a row. -/
theorem c7_comment_loop_stops_witness :
    comments_loop (fun _ => [{ eid := 7 }]) 5 [] { eid := 7 } 1 3 =
      .ok [{ eid := 7 }] 1 :=
  c7_comment_loop_stops.1 (fun _ => [{ eid := 7 }]) 5 [] { eid := 7 } 1 2
    (by decide) (by decide)

/-- C8 counterexample: in `src/LikeeScraper/api.py` there is no unbounded
mode — invoked without a limit, `get_user_videos` uses the numeric default
10, enters the bounded loop, and truncates a 12-item first page to 10
items, so the single page is not returned as-is; with 5-item pages it even
makes 2 transport calls. -/
theorem c8_counterexample :
    LikeeScraper.get_user_videos
      (mockNet (fun _ => (List.range 12).map (fun n => (⟨n⟩ : Item))))
      10 [] 0 5 =
      .ok ((List.range 10).map (fun n => (⟨n⟩ : Item)))
        ((List.range 12).map (fun n => (⟨n⟩ : Item))) 1 ∧
    ((List.range 10).map (fun n => (⟨n⟩ : Item))) ≠
      ((List.range 12).map (fun n => (⟨n⟩ : Item))) ∧
    LikeeScraper.get_user_videos
      (mockNet (fun k => (List.range 5).map
        (fun n => (⟨(5 * k + n : Nat)⟩ : Item)))) 10 [] 0 9 =
      .ok ((List.range 10).map (fun n => (⟨n⟩ : Item)))
        ((List.range 10).map (fun n => (⟨n⟩ : Item))) 2 :=
  ⟨by decide, by decide, by decide⟩

/-- C8 (amended): in `src/api.py`, every list-fetching operation invoked
with `limit=None` makes exactly one transport call and returns that single
page as-is, without truncation and without entering the bounded loop;
in `src/LikeeScraper/api.py` the limits instead default to numbers
(10/30/20/50) and the bounded loop always runs. -/
theorem c8_amended_unbounded_mode (pg : Nat → List Item) (fuel : Nat)
    (hfuel : 1 ≤ fuel) :
    RootApi.get_user_videos (mockNet1 pg) none [] 0 fuel =
      .ok (pg 0) (pg 0) 1 ∧
    RootApi.get_trending_videos (mockNet1 pg) none [] 0 fuel =
      .ok (pg 0) (pg 0) 1 ∧
    RootApi.get_trending_hashtags (mockNet1 pg) none [] 0 fuel =
      .ok (pg 0) (pg 0) 1 ∧
    RootApi.get_hashtag_videos (mockNet1 pg) none [] 0 fuel =
      .ok (pg 0) (pg 0) 1 := by
  obtain ⟨f, rfl⟩ : ∃ f, fuel = f + 1 := ⟨fuel - 1, by omega⟩
  refine ⟨?_, ?_, ?_, ?_⟩ <;>
    simp [RootApi.get_user_videos, RootApi.get_trending_videos,
      RootApi.get_trending_hashtags, RootApi.get_hashtag_videos,
      RootApi.make_post_request, RootApi.pyTruthy, mockNet1, mockBody,
      validate_response, getData, getVideoList, getEventList]

/-- C8 witness: the amended claim at a one-item page and fuel 1. -/
theorem c8_amended_unbounded_mode_witness :
    RootApi.get_user_videos (mockNet1 (fun _ => [⟨5⟩])) none [] 0 1 =
      .ok [⟨5⟩] [⟨5⟩] 1 :=
  (c8_amended_unbounded_mode (fun _ => [⟨5⟩]) 1 (le_refl 1)).1

/-- C2 counterexample: with a source holding 0 items (first page present
but empty) and limit 10, `get_user_videos` raises `IndexError` instead of
returning the 0 available items; and `src/api.py`'s `get_video_comments`
returns 8 comments for a requested limit of 5 when a single poll yields 8
elements, exceeding the limit. -/
theorem c2_counterexample :
    LikeeScraper.get_user_videos (mockNet (fun _ => [])) 10 [] 0 5 =
      .err .indexError 1 ∧
    RootApi.get_video_comments
      { videoCards := [{ eid := 100 }], countText := "20",
        polls := fun _ => (List.range 8).map (fun n => { eid := n }) } 5 10 =
      .ok (((List.range 8).map (fun n => ({ eid := n } : Elem))).map
        mk_comment) ∧
    ((((List.range 8).map (fun n => ({ eid := n } : Elem))).map
      mk_comment)).length = 8 :=
  ⟨by decide, by decide, by decide⟩

/-- C2 (amended): `get_trending_hashtags` returns exactly
`min limit available` items against an exhausting source;
`get_user_videos` returns exactly `limit` items whenever the source's
nonempty pages supply at least `limit`; every normal return of the four
pagination operations never exceeds the limit; and the `LikeeScraper`
version of `get_video_comments` never returns more comments than a
nonnegative requested limit (given a nonnegative displayed count). -/
theorem c2_amended_result_lengths :
    (∀ (pg : Nat → List Item) (limit m fuel : Nat),
      (∀ j, j < m → pg j ≠ []) → pg m = [] → m + 1 ≤ fuel →
      ∃ ret sh c,
        LikeeScraper.get_trending_hashtags (mockNet pg) limit [] 0 fuel =
          .ok ret sh c ∧
        ret.length = min limit (pagesJoin pg 0 m).length) ∧
    (∀ (pg : Nat → List Item) (limit m fuel : Nat),
      (∀ j, j < m → pg j ≠ []) → limit ≤ (pagesJoin pg 0 m).length →
      m + 1 ≤ fuel →
      ∃ ret sh c,
        LikeeScraper.get_user_videos (mockNet pg) limit [] 0 fuel =
          .ok ret sh c ∧ ret.length = limit) ∧
    (∀ (net : Nat → HttpOutcome) (limit : Nat) (acc : List Item)
       (k fuel : Nat) (ret sh : List Item) (c : Nat),
      LikeeScraper.get_user_videos net limit acc k fuel = .ok ret sh c →
      ret.length ≤ limit) ∧
    (∀ (net : Nat → HttpOutcome) (limit : Nat) (acc : List Item)
       (k fuel : Nat) (ret sh : List Item) (c : Nat),
      LikeeScraper.get_trending_videos net limit acc k fuel = .ok ret sh c →
      ret.length ≤ limit) ∧
    (∀ (net : Nat → HttpOutcome) (limit : Nat) (acc : List Item)
       (k fuel : Nat) (ret sh : List Item) (c : Nat),
      LikeeScraper.get_hashtag_videos net limit acc k fuel = .ok ret sh c →
      ret.length ≤ limit) ∧
    (∀ (net : Nat → HttpOutcome) (limit : Nat) (acc : List Item)
       (k fuel : Nat) (ret sh : List Item) (c : Nat),
      LikeeScraper.get_trending_hashtags net limit acc k fuel = .ok ret sh c →
      ret.length ≤ limit) ∧
    (∀ (page : CommentsPage) (limit : Int) (fuel : Nat)
       (comments : List Comment),
      (∀ n, parseCount page = .ok n → 0 ≤ n) → 0 ≤ limit →
      LikeeScraper.get_video_comments page limit fuel = .ok comments →
      (comments.length : Int) ≤ limit) := by
  refine ⟨?_, ?_, ?_, ?_, ?_, ?_, gvc_le_limit⟩
  · intro pg limit m fuel h1 h2 hfuel
    obtain ⟨n, c, -, -, hrun, -⟩ := ght_run pg limit m [] 0 fuel
      (by intro j hj; simpa using h1 j hj) (by simpa using h2) hfuel
    exact ⟨_, _, _, hrun, by rw [List.length_take, List.nil_append]⟩
  · intro pg limit m fuel h1 h2 hfuel
    obtain ⟨sh, c, hrun⟩ := guv_run pg limit m [] 0 fuel
      (by intro j hj; simpa using h1 j hj) (by simpa using h2) hfuel
    refine ⟨_, sh, c, hrun, ?_⟩
    rw [List.length_take, List.nil_append]
    omega
  · intro net limit acc k fuel ret sh c h
    obtain ⟨rfl, -⟩ := guv_ok_inv fuel net limit acc k ret sh c h
    rw [List.length_take]
    exact min_le_left _ _
  · intro net limit acc k fuel ret sh c h
    obtain ⟨rfl, -⟩ := gtv_ok_inv fuel net limit acc k ret sh c h
    rw [List.length_take]
    exact min_le_left _ _
  · intro net limit acc k fuel ret sh c h
    obtain ⟨rfl, -⟩ := ghv_ok_inv fuel net limit acc k ret sh c h
    rw [List.length_take]
    exact min_le_left _ _
  · intro net limit acc k fuel ret sh c h
    have hret := ght_ok_inv fuel net limit acc k ret sh c h
    subst hret
    rw [List.length_take]
    exact min_le_left _ _

/-- C2 witness: the comment-limit clause applied to a concrete page with
a displayed count of 7 and requested limit 5, returning 3 comments. -/
theorem c2_amended_result_lengths_witness :
    ((([{ eid := 1 }, { eid := 2 }, { eid := 3 }] : List Elem).map
      mk_comment).length : Int) ≤ 5 :=
  c2_amended_result_lengths.2.2.2.2.2.2 c2wpage 5 10
    (([{ eid := 1 }, { eid := 2 }, { eid := 3 }] : List Elem).map mk_comment)
    (by
      intro n hn
      rw [show parseCount c2wpage = Except.ok 7 from by decide] at hn
      obtain rfl := Except.ok.inj hn
      decide)
    (by decide) (by decide)

/-- C6: two runs of the same fetch with the same arguments against an
unchanged source return item sets with identical membership of primary
identifiers, even though the second run starts from the shared mutable
default accumulator left behind by the first.  Stated for both cursor
styles: the three video operations against any transport, and
`get_trending_hashtags` against a mocked source with nonempty pages
followed by exhaustion.  In the first three cases the two returned lists
are in fact equal. -/
theorem c6_idempotent_membership :
    (∀ (net : Nat → HttpOutcome) (limit fuel1 fuel2 : Nat)
       (r1 s1 r2 s2 : List Item) (c1 c2 : Nat),
      LikeeScraper.get_user_videos net limit [] 0 fuel1 = .ok r1 s1 c1 →
      LikeeScraper.get_user_videos net limit s1 0 fuel2 = .ok r2 s2 c2 →
      ∀ pid, pid ∈ r2.map Item.postId ↔ pid ∈ r1.map Item.postId) ∧
    (∀ (net : Nat → HttpOutcome) (limit fuel1 fuel2 : Nat)
       (r1 s1 r2 s2 : List Item) (c1 c2 : Nat),
      LikeeScraper.get_trending_videos net limit [] 0 fuel1 = .ok r1 s1 c1 →
      LikeeScraper.get_trending_videos net limit s1 0 fuel2 = .ok r2 s2 c2 →
      ∀ pid, pid ∈ r2.map Item.postId ↔ pid ∈ r1.map Item.postId) ∧
    (∀ (net : Nat → HttpOutcome) (limit fuel1 fuel2 : Nat)
       (r1 s1 r2 s2 : List Item) (c1 c2 : Nat),
      LikeeScraper.get_hashtag_videos net limit [] 0 fuel1 = .ok r1 s1 c1 →
      LikeeScraper.get_hashtag_videos net limit s1 0 fuel2 = .ok r2 s2 c2 →
      ∀ pid, pid ∈ r2.map Item.postId ↔ pid ∈ r1.map Item.postId) ∧
    (∀ (net : Nat → Nat × Body) (L fuel1 fuel2 : Nat)
       (r1 s1 r2 s2 : List Item) (c1 c2 : Nat), L ≠ 0 →
      RootApi.get_trending_videos net (some L) [] 0 fuel1 = .ok r1 s1 c1 →
      RootApi.get_trending_videos net (some L) s1 0 fuel2 = .ok r2 s2 c2 →
      ∀ pid, pid ∈ r2.map Item.postId ↔ pid ∈ r1.map Item.postId) ∧
    (∀ (pg : Nat → List Item) (limit m fuel1 fuel2 : Nat)
       (r1 s1 r2 s2 : List Item) (c1 c2 : Nat),
      (∀ j, j < m → pg j ≠ []) → pg m = [] →
      m + 1 ≤ fuel1 → m + 1 ≤ fuel2 →
      LikeeScraper.get_trending_hashtags (mockNet pg) limit [] 0 fuel1 =
        .ok r1 s1 c1 →
      LikeeScraper.get_trending_hashtags (mockNet pg) limit s1 0 fuel2 =
        .ok r2 s2 c2 →
      ∀ pid, pid ∈ r2.map Item.postId ↔ pid ∈ r1.map Item.postId) := by
  refine ⟨?_, ?_, ?_, ?_, ?_⟩
  · intro net limit fuel1 fuel2 r1 s1 r2 s2 c1 c2 hrun1 hrun2 pid
    obtain ⟨hr1, hlen⟩ := guv_ok_inv fuel1 net limit [] 0 r1 s1 c1 hrun1
    obtain ⟨hr2, -⟩ := guv_from_full net limit s1 0 fuel2 r2 s2 c2 hlen hrun2
    rw [hr1, hr2]
  · intro net limit fuel1 fuel2 r1 s1 r2 s2 c1 c2 hrun1 hrun2 pid
    obtain ⟨hr1, hlen⟩ := gtv_ok_inv fuel1 net limit [] 0 r1 s1 c1 hrun1
    obtain ⟨hr2, -⟩ := gtv_from_full net limit s1 0 fuel2 r2 s2 c2 hlen hrun2
    rw [hr1, hr2]
  · intro net limit fuel1 fuel2 r1 s1 r2 s2 c1 c2 hrun1 hrun2 pid
    obtain ⟨hr1, hlen⟩ := ghv_ok_inv fuel1 net limit [] 0 r1 s1 c1 hrun1
    obtain ⟨hr2, -⟩ := ghv_from_full net limit s1 0 fuel2 r2 s2 c2 hlen hrun2
    rw [hr1, hr2]
  · intro net L fuel1 fuel2 r1 s1 r2 s2 c1 c2 hL hrun1 hrun2 pid
    obtain ⟨hr1, hlen⟩ := rgtv_ok_inv fuel1 net L [] 0 r1 s1 c1 hL hrun1
    obtain ⟨hr2, -⟩ := rgtv_from_full net L s1 0 fuel2 r2 s2 c2 hL hlen hrun2
    rw [hr1, hr2]
  · intro pg limit m fuel1 fuel2 r1 s1 r2 s2 c1 c2 h1 h2 hf1 hf2 hrun1 hrun2
    obtain ⟨n1, d1, hn1a, hn1b, hr1, hdisj1⟩ := ght_run pg limit m [] 0 fuel1
      (by intro j hj; simpa using h1 j hj) (by simpa using h2) hf1
    rw [hrun1] at hr1
    obtain ⟨hr1e, hs1e, -⟩ := Outcome.ok.inj hr1.symm
    obtain ⟨n2, d2, hn2a, hn2b, hr2, hdisj2⟩ := ght_run pg limit m s1 0 fuel2
      (by intro j hj; simpa using h1 j hj) (by simpa using h2) hf2
    rw [hrun2] at hr2
    obtain ⟨hr2e, hs2e, -⟩ := Outcome.ok.inj hr2.symm
    rw [List.nil_append] at hr1e hs1e hdisj1
    -- s1 is the join of the first n1 pages; the join of all m pages
    -- extends it
    have hsj : ∃ t, pagesJoin pg 0 m = pagesJoin pg 0 n1 ++ t := by
      rcases Nat.lt_or_ge n1 (m + 1) with hlt | hge
      · refine ⟨pagesJoin pg n1 (m - n1), ?_⟩
        have hm : m = n1 + (m - n1) := by omega
        calc pagesJoin pg 0 m = pagesJoin pg 0 (n1 + (m - n1)) := by rw [← hm]
          _ = pagesJoin pg 0 n1 ++ pagesJoin pg (0 + n1) (m - n1) :=
            pagesJoin_add pg n1 0 (m - n1)
          _ = pagesJoin pg 0 n1 ++ pagesJoin pg n1 (m - n1) := by
            rw [Nat.zero_add]
      · have hn1m : n1 = m + 1 := by omega
        refine ⟨[], ?_⟩
        rw [hn1m, pagesJoin_succ_right]
        simp [Nat.zero_add, h2]
    obtain ⟨t, ht⟩ := hsj
    rcases hdisj1 with hle | hn1m
    · -- the first run already filled the limit
      have heq : r2 = r1 := by
        rw [← hr2e, ← hr1e, ← hs1e, ht, List.take_append_of_le_length hle,
          List.take_append_of_le_length hle]
      intro pid
      rw [heq]
    · -- the first run was stopped by exhaustion: s1 is the whole source
      have hs1J : s1 = pagesJoin pg 0 m := by
        rw [← hs1e, hn1m, pagesJoin_succ_right]
        simp [Nat.zero_add, h2]
      by_cases hlim : limit ≤ (pagesJoin pg 0 m).length
      · have heq : r2 = r1 := by
          rw [← hr2e, ← hr1e, hs1J, List.take_append_of_le_length hlim]
        intro pid
        rw [heq]
      · have hr1J : r1 = pagesJoin pg 0 m :=
          hr1e.symm.trans (List.take_of_length_le (by omega))
        have hmem : ∀ x : Item, x ∈ r2 ↔ x ∈ r1 := by
          intro x
          rw [hr1J, ← hr2e, hs1J]
          constructor
          · intro hx
            have hx2 := List.take_subset _ _ hx
            rcases List.mem_append.mp hx2 with h | h
            · exact h
            · exact h
          · intro hx
            have hfull : (pagesJoin pg 0 m).take limit = pagesJoin pg 0 m :=
              List.take_of_length_le (by omega)
            rw [List.take_append_eq_append_take, hfull]
            exact List.mem_append_left _ hx
        intro pid
        simp only [List.mem_map]
        constructor
        · rintro ⟨x, hx, rfl⟩
          exact ⟨x, (hmem x).mp hx, rfl⟩
        · rintro ⟨x, hx, rfl⟩
          exact ⟨x, (hmem x).mpr hx, rfl⟩

/-- C6 witness: the `get_user_videos` clause applied to a concrete
two-item source with limit 2; the first run returns `[1, 2]` leaving the
shared accumulator `[1, 2]`, and the second run (starting from that shared
accumulator) returns items with the same identifier membership. -/
theorem c6_idempotent_membership_witness :
    ((1 : Int) ∈ ([⟨1⟩, ⟨2⟩] : List Item).map Item.postId) ↔
      ((1 : Int) ∈ ([⟨1⟩, ⟨2⟩] : List Item).map Item.postId) :=
  c6_idempotent_membership.1 (mockNet (fun _ => [⟨1⟩, ⟨2⟩])) 2 5 5
    [⟨1⟩, ⟨2⟩] [⟨1⟩, ⟨2⟩] [⟨1⟩, ⟨2⟩] [⟨1⟩, ⟨2⟩, ⟨1⟩, ⟨2⟩] 1 1
    (by decide) (by decide) 1
